import Mathlib

/-!
# Verification of the llm-proxy Agent orchestration core

Shallow embedding, in Lean 4, of the parts of the `llm-proxy` repository that
the specification's testable properties talk about:

* `KnowledgeBase.searchDocuments`, `KnowledgeBase.deleteDocument` and
  `SupabaseKnowledgeBase.deleteDocument` (src/knowledge/KnowledgeBase.js,
  src/knowledge/SupabaseKnowledgeBase.js);
* `ProviderFactory.createProvider` (src/providers/ProviderFactory.js);
* the image-part translation of `AnthropicProvider.formatMessages` and
  `GoogleProvider.formatMessages`;
* `Agent.generateResponse` / `Agent.generateStreamResponse` (src/agent/Agent.js).

JavaScript-specific semantics that the code relies on are embedded explicitly:

* `x || d` on numbers/strings treats `0` and the empty string as falsy
  (`jsOrNat`, `jsOrRat`, `jsOrStr`);
* `String.prototype.split` with a one-character separator (`jsSplitChar`);
* `String.prototype.includes` substring containment (`strIncludes`);
* `Array.prototype.sort` with comparator `(a, b) => b.score - a.score`,
  which is a stable sort ordering by score descending (`sortByScoreDesc`,
  a stable insertion sort computing the same result);
* `Array.prototype.slice(-20)` (`trimHistory`);
* JS `Map` get/set/delete on string keys, preserving insertion order
  (`mapGet`, `mapSet`, `mapDelete`).

Numbers are modelled as `Nat` (counts, token budgets) and `ℚ` (temperature,
relevance).  The only arithmetic the claims exercise is exact
(`score / termCount` comparisons against 0 and 1, and the `|| 0`-falsiness
branch), so `ℚ` is a faithful abstraction of JS doubles here.
-/

namespace LLMProxy

/-! ## JavaScript semantics helpers -/

/-- JS `opt || dflt` for string options: `undefined` and `""` are falsy. -/
def jsOrStr (opt : Option String) (dflt : String) : String :=
  match opt with
  | none => dflt
  | some s => if s = "" then dflt else s

/-- JS `opt || dflt` for numeric options: `undefined` and `0` are falsy. -/
def jsOrNat (opt : Option Nat) (dflt : Nat) : Nat :=
  match opt with
  | none => dflt
  | some n => if n = 0 then dflt else n

/-- JS `opt || dflt` for (double-valued) numeric options, modelled on `ℚ`:
`undefined` and `0` are falsy. -/
def jsOrRat (opt : Option ℚ) (dflt : ℚ) : ℚ :=
  match opt with
  | none => dflt
  | some q => if q = 0 then dflt else q

/-- JS `s.toLowerCase()`, character by character (the code only ever lowers
ASCII provider names, queries and file text). -/
def jsToLower (s : String) : String :=
  ⟨s.data.map Char.toLower⟩

/-- JS `s.substring(0, n)` / the first `n` characters of `s`. -/
def strTake (n : Nat) (s : String) : String :=
  ⟨s.data.take n⟩

/-- JS `Array.prototype.join(sep)`. -/
def jsJoin (sep : String) : List String → String
  | [] => ""
  | [s] => s
  | s :: rest => s ++ sep ++ jsJoin sep rest

/-- JS `Math.min(a, b)` on exact values, written with the primitive `Rat.blt`
comparison (definitionally the `<` of `ℚ`). -/
def jsMin (a b : ℚ) : ℚ :=
  if Rat.blt a b then a else b

/-- JS truthiness of an optional string (`sessionId ? a : b`):
`undefined` and `""` are falsy, so an empty-string session id behaves like
no session id at all. -/
def jsTruthyStr (opt : Option String) : Option String :=
  match opt with
  | none => none
  | some s => if s = "" then none else some s

/-- `needle` is a prefix of `haystack` (Boolean, by direct recursion). -/
def listStartsWith [DecidableEq α] : List α → List α → Bool
  | [], _ => true
  | _ :: _, [] => false
  | a :: as, b :: bs => a = b && listStartsWith as bs

/-- `needle` occurs as a contiguous sublist of `haystack` (Boolean). -/
def listContainsSub [DecidableEq α] : List α → List α → Bool
  | needle, [] => needle.isEmpty
  | needle, h :: t => listStartsWith needle (h :: t) || listContainsSub needle t

/-- JS `s.includes(pat)`: substring containment. -/
def strIncludes (s pat : String) : Bool :=
  listContainsSub pat.data s.data

/-- JS `s.split(sep)` for a one-character separator, on the character list:
splits at every occurrence of `sep`; always returns at least one (possibly
empty) segment, exactly like `String.prototype.split`. -/
def jsSplitChar (sep : Char) : List Char → List (List Char)
  | [] => [[]]
  | c :: cs =>
    if c = sep then [] :: jsSplitChar sep cs
    else
      match jsSplitChar sep cs with
      | [] => [[c]]
      | seg :: rest => (c :: seg) :: rest

/-- JS `s.split(',')` as a list of strings. -/
def jsSplitComma (s : String) : List String :=
  (jsSplitChar ',' s.data).map (fun l => ⟨l⟩)

/-- JS `s.split(' ')`, used by the knowledge-base query tokenizer.  Note that
`"".split(' ')` is `[""]`, never the empty array. -/
def jsSplitSpace (s : String) : List String :=
  (jsSplitChar ' ' s.data).map (fun l => ⟨l⟩)

/-- Concatenation of a list of strings (the `context += ...` loop shape). -/
def concatStrings : List String → String
  | [] => ""
  | s :: rest => s ++ concatStrings rest

/-- Association list lookup, modelling JS `Map.prototype.get` (string keys). -/
def mapGet (m : List (String × α)) (k : String) : Option α :=
  match m with
  | [] => none
  | (k₀, v₀) :: rest => if k₀ = k then some v₀ else mapGet rest k

/-- JS `Map.prototype.set`: overwrite in place if the key is present
(preserving insertion order), otherwise append. -/
def mapSet (m : List (String × α)) (k : String) (v : α) : List (String × α) :=
  match m with
  | [] => [(k, v)]
  | (k₀, v₀) :: rest => if k₀ = k then (k, v) :: rest else (k₀, v₀) :: mapSet rest k v

/-- JS `Map.prototype.delete`. -/
def mapDelete (m : List (String × α)) (k : String) : List (String × α) :=
  match m with
  | [] => []
  | (k₀, v₀) :: rest => if k₀ = k then rest else (k₀, v₀) :: mapDelete rest k

/-- Decidable equality for `Except`, used to evaluate the embedded operations
on concrete inputs. -/
instance [DecidableEq ε] [DecidableEq α] : DecidableEq (Except ε α) := fun a b =>
  match a, b with
  | .ok x, .ok y =>
    if h : x = y then .isTrue (by rw [h])
    else .isFalse (by intro hh; cases hh; exact h rfl)
  | .error x, .error y =>
    if h : x = y then .isTrue (by rw [h])
    else .isFalse (by intro hh; cases hh; exact h rfl)
  | .ok _, .error _ => .isFalse (by intro hh; cases hh)
  | .error _, .ok _ => .isFalse (by intro hh; cases hh)

/-! ## Knowledge base (file-backed): `KnowledgeBase` in src/knowledge/KnowledgeBase.js -/

/-- One stored document of the file-backed knowledge base.  Field
`text`/`content` are `Option String` because image documents carry neither
(the code reads `doc.text || doc.content || ''`). -/
structure KBDocument where
  id : String
  filename : String
  path : String
  type : String
  text : Option String
  content : Option String
  deriving DecidableEq, Repr

/-- `(doc.text || doc.content || '')`: first truthy of text, content, `""`. -/
def searchableTextOf (d : KBDocument) : String :=
  jsOrStr d.text (jsOrStr d.content "")

/-- `query.toLowerCase().split(' ')` — the search terms.  Never empty:
`"".split(' ')` is `[""]`. -/
def searchTermsOf (query : String) : List String :=
  jsSplitSpace (jsToLower query)

/-- The matching loop: `for (term of searchTerms) if (searchableText.includes(term)) score += 1`. -/
def docScore (terms : List String) (d : KBDocument) : Nat :=
  terms.countP (fun t => strIncludes (jsToLower (searchableTextOf d)) t)

/-- A document together with the `score` and `relevance` fields that
`searchDocuments` attaches to each hit. -/
structure ScoredDoc extends KBDocument where
  score : Nat
  relevance : ℚ
  deriving DecidableEq, Repr

/-- The candidate pass of `searchDocuments`: every document whose score is
positive, decorated with `score` and `relevance = Math.min(score / searchTerms.length, 1)`,
in index-iteration (insertion) order. -/
def scoreCandidates (docs : List KBDocument) (terms : List String) : List ScoredDoc :=
  docs.filterMap (fun d =>
    if 0 < docScore terms d then
      some { toKBDocument := d, score := docScore terms d,
             relevance := jsMin ((docScore terms d : ℚ) / (terms.length : ℚ)) 1 }
    else none)

/-- Insert into a score-descending list, after every element of score ≥ the
inserted score — the placement a stable sort gives the later-encountered
element. -/
def insertByScoreDesc (x : ScoredDoc) : List ScoredDoc → List ScoredDoc
  | [] => [x]
  | y :: ys => if y.score ≤ x.score then x :: y :: ys else y :: insertByScoreDesc x ys

/-- `results.sort((a, b) => b.score - a.score)`: JS `Array.prototype.sort`
is stable, so this is the stable descending-by-score sort, computed here as
a stable insertion sort. -/
def sortByScoreDesc : List ScoredDoc → List ScoredDoc
  | [] => []
  | x :: xs => insertByScoreDesc x (sortByScoreDesc xs)

/-- The scored candidates of a query, sorted: what `searchDocuments` returns
before the limit is applied. -/
def searchResultsAll (docs : List KBDocument) (query : String) : List ScoredDoc :=
  sortByScoreDesc (scoreCandidates docs (searchTermsOf query))

/-- `KnowledgeBase.searchDocuments(query, options)`.  `options.limit` is
applied through `if (options.limit)` — so a limit of `0` (falsy) applies no
truncation at all. -/
def searchDocuments (docs : List KBDocument) (query : String) (limit : Option Nat) :
    List ScoredDoc :=
  match limit with
  | none => searchResultsAll docs query
  | some k =>
    if k = 0 then searchResultsAll docs query
    else (searchResultsAll docs query).take k

/-! ### File-backed delete: `KnowledgeBase.deleteDocument` -/

/-- The state `deleteDocument` touches: the in-memory `documents` map
(insertion-ordered, keyed by id) and the files on disk (by path).
`fs.unlink` is modelled as: succeeds iff the path exists, and removes it. -/
structure FSKnowledgeState where
  documents : List (String × KBDocument)
  files : List String
  deriving DecidableEq, Repr

/-- `KnowledgeBase.deleteDocument(id)`: throws `Document not found` when the
id is absent from the map; otherwise unlinks the file (wrapping an unlink
failure) and deletes the map entry. -/
def deleteDocument (st : FSKnowledgeState) (id : String) :
    Except String Bool × FSKnowledgeState :=
  match mapGet st.documents id with
  | none => (.error "Document not found", st)
  | some doc =>
    if st.files.contains doc.path then
      (.ok true,
        { documents := mapDelete st.documents id, files := st.files.erase doc.path })
    else
      (.error "Failed to delete document: unlink error", st)

/-! ### Supabase-backed delete: `SupabaseKnowledgeBase.deleteDocument` -/

/-- A row of the Supabase table backing the remote knowledge base. -/
structure SupaRow where
  id : String
  title : String
  deriving DecidableEq, Repr

/-- `SupabaseKnowledgeBase.deleteDocument(id)`:
`client.from(table).delete().eq('id', id)` deletes every matching row and —
per PostgREST semantics, which the supabase-js client exposes — reports an
error only on a backend/transport failure (`backendError`), never because
zero rows matched.  The code checks only `if (error) throw`; there is no
not-found branch. -/
def supabaseDeleteDocument (backendError : Option String) (rows : List SupaRow)
    (id : String) : Except String Bool × List SupaRow :=
  match backendError with
  | some e => (.error ("Failed to delete document: " ++ e), rows)
  | none => (.ok true, rows.filter (fun r => r.id ≠ id))

/-! ## Internal message representation -/

/-- One typed part of a multimodal user message: `{type: 'text', text}` or
`{type: 'image_url', image_url: {url}}`, where `url` is a data-URL. -/
inductive ContentItem
  | text (t : String)
  | imageUrl (url : String)
  deriving DecidableEq, Repr

/-- A message body: a plain string or an ordered array of typed parts. -/
inductive MessageContent
  | str (s : String)
  | parts (items : List ContentItem)
  deriving DecidableEq, Repr

/-- A chat message `{role, content}`. -/
structure Message where
  role : String
  content : MessageContent
  deriving DecidableEq, Repr

/-- A data-URL `data:<mime>;base64,<payload>`. -/
def dataUrl (mime payload : String) : String :=
  "data:" ++ mime ++ ";base64," ++ payload

/-! ## Provider adapters: image-part translation -/

/-- The Anthropic image block `{type: 'image', source: {type, media_type, data}}`
or a plain text block. -/
inductive AnthropicPart
  | text (t : String)
  | image (sourceType mediaType data : String)
  deriving DecidableEq, Repr

/-- `AnthropicProvider.formatMessages`, content-item translation: a text item
passes through; an image item becomes a base64 source block with
`media_type: 'image/jpeg'` hard-coded and `data: item.image_url.url.split(',')[1]`. -/
def anthropicFormatItem (item : ContentItem) : AnthropicPart :=
  match item with
  | .text t => .text t
  | .imageUrl url => .image "base64" "image/jpeg" (((jsSplitComma url).get? 1).getD "")

/-- The Gemini part `{text}` or `{inline_data: {mime_type, data}}`. -/
inductive GooglePart
  | text (t : String)
  | inlineData (mimeType data : String)
  deriving DecidableEq, Repr

/-- `GoogleProvider.formatMessages`, content-item translation: an image item
becomes `inline_data` with `mime_type: 'image/jpeg'` hard-coded
(the source comments it: Default to JPEG, could be improved) and
`data: item.image_url.url.split(',')[1]`. -/
def googleFormatItem (item : ContentItem) : GooglePart :=
  match item with
  | .text t => .text t
  | .imageUrl url => .inlineData "image/jpeg" (((jsSplitComma url).get? 1).getD "")

/-- The media type an `AnthropicPart` carries (empty for text blocks). -/
def AnthropicPart.mediaTypeOf : AnthropicPart → String
  | .text _ => ""
  | .image _ m _ => m

/-- The payload an `AnthropicPart` carries (empty for text blocks). -/
def AnthropicPart.dataOf : AnthropicPart → String
  | .text _ => ""
  | .image _ _ d => d

/-- The mime type a `GooglePart` carries (empty for text parts). -/
def GooglePart.mimeTypeOf : GooglePart → String
  | .text _ => ""
  | .inlineData m _ => m

/-- The payload a `GooglePart` carries (empty for text parts). -/
def GooglePart.dataOf : GooglePart → String
  | .text _ => ""
  | .inlineData _ d => d

/-! ## Provider factory: `ProviderFactory.createProvider` -/

/-- The five adapter classes the factory can construct. -/
inductive ProviderKind
  | openai
  | google
  | anthropic
  | mistral
  | fireworks
  deriving DecidableEq, Repr

/-- `ProviderFactory.createProvider(providerName, config)`: a `switch` on
`providerName.toLowerCase()` with the aliases `gemini` (Google) and `claude`
(Anthropic); the `default` branch throws
`Unsupported provider: ${providerName}`.  Constructing an adapter only stores
the config and instantiates an SDK client object; resolution performs no
network call, and on the error branch no adapter is constructed at all. -/
def createProvider (name : String) : Except String ProviderKind :=
  if jsToLower name = "openai" then .ok .openai
  else if jsToLower name = "google" ∨ jsToLower name = "gemini" then .ok .google
  else if jsToLower name = "anthropic" ∨ jsToLower name = "claude" then .ok .anthropic
  else if jsToLower name = "mistral" then .ok .mistral
  else if jsToLower name = "fireworks" then .ok .fireworks
  else .error ("Unsupported provider: " ++ name)

/-- The successful-resolution table of the factory's `switch`, as a function
of the already-lowercased name (derived from `createProvider` for the
resolution lemmas; `none` is the `default` branch). -/
def resolveLower (n : String) : Option ProviderKind :=
  if n = "openai" then some .openai
  else if n = "google" ∨ n = "gemini" then some .google
  else if n = "anthropic" ∨ n = "claude" then some .anthropic
  else if n = "mistral" then some .mistral
  else if n = "fireworks" then some .fireworks
  else none

/-! ## The Agent (src/agent/Agent.js) -/

/-- Query extraction from `userMessage`: for a multimodal array, the text of
the text-typed items joined by a single space; for a string, the string
itself. -/
def extractSearchQuery : MessageContent → String
  | .str s => s
  | .parts items =>
    jsJoin " "
      (items.filterMap (fun i =>
        match i with
        | .text t => some t
        | .imageUrl _ => none))

/-- JS template interpolation of `doc.text?.substring(0, 500)`:
`undefined` renders as the string `undefined`. -/
def textExcerpt500 (o : Option String) : String :=
  match o with
  | some t => strTake 500 t
  | none => "undefined"

/-- One line of knowledge context:
`[Image: ${doc.filename}]\n` for image documents, otherwise
`[${doc.filename}]: ${doc.text?.substring(0, 500)}...\n`. -/
def contextEntry (d : ScoredDoc) : String :=
  if d.type = "image" then "[Image: " ++ d.filename ++ "]\n"
  else "[" ++ d.filename ++ "]: " ++ textExcerpt500 d.text ++ "...\n"

/-- The knowledge context block: empty when no documents matched, otherwise
the `Relevant knowledge` header followed by one entry per document. -/
def buildContext (docs : List ScoredDoc) : String :=
  match docs with
  | [] => ""
  | _ => "\n\nRelevant knowledge:\n" ++ concatStrings (docs.map contextEntry)

/-- `config.llm`: the defaults the agent falls back to. -/
structure LLMConfig where
  defaultProvider : String
  defaultModel : String
  maxTokens : Nat
  temperature : ℚ
  deriving DecidableEq, Repr

/-- The caller-supplied `options` of `generateResponse` /
`generateStreamResponse`. -/
structure RespondOptions where
  provider : Option String := none
  model : Option String := none
  maxTokens : Option Nat := none
  temperature : Option ℚ := none
  sessionId : Option String := none
  deriving DecidableEq, Repr

/-- The model/maxTokens/temperature triple passed to the provider:
`options.x || this.config.llm.x` for each field (JS `||`, so `0` and `""`
fall back to the default). -/
structure ModelParams where
  model : String
  maxTokens : Nat
  temperature : ℚ
  deriving DecidableEq, Repr

/-- The parameter triple `generateResponse` computes for the provider call. -/
def respondCallArgs (cfg : LLMConfig) (opts : RespondOptions) : ModelParams :=
  { model := jsOrStr opts.model cfg.defaultModel
    maxTokens := jsOrNat opts.maxTokens cfg.maxTokens
    temperature := jsOrRat opts.temperature cfg.temperature }

/-- What a provider's `generateResponse` resolves with; only `content` feeds
back into agent state (usage/model/provider fields are returned to the caller
unchanged and are elided here). -/
structure ProviderResponse where
  content : String
  deriving DecidableEq, Repr

/-- The per-document summary `{id, filename, type, relevance}` the agent
returns alongside the completion. -/
structure DocSummary where
  id : String
  filename : String
  type : String
  relevance : ℚ
  deriving DecidableEq, Repr

/-- `relevantDocs.map(doc => ({id, filename, type, relevance}))`. -/
def summarize (d : ScoredDoc) : DocSummary :=
  ⟨d.id, d.filename, d.type, d.relevance⟩

/-- The agent's mutable state: `this.conversationHistory` (the default,
unscoped history) and `this.sessionHistories` (the per-session map). -/
structure AgentState where
  conversationHistory : List Message
  sessionHistories : List (String × List Message)
  deriving DecidableEq, Repr

/-- `updatedHistory.length > 20 ? updatedHistory.slice(-20) : updatedHistory`:
keep only the most recent 20 messages. -/
def trimHistory (l : List α) : List α :=
  if 20 < l.length then l.drop (l.length - 20) else l

/-- The history the agent reads for this call: the per-session entry (or `[]`)
when a truthy session id is supplied, else the default history. -/
def historyFor (st : AgentState) (sessionId : Option String) : List Message :=
  match jsTruthyStr sessionId with
  | some sid => (mapGet st.sessionHistories sid).getD []
  | none => st.conversationHistory

/-- `this.systemPrompt + context`: the content of the system message the
agent sends to the provider. -/
def systemMessageContent (systemPrompt : String) (docs : List ScoredDoc) : String :=
  systemPrompt ++ buildContext docs

/-- The message array sent to the provider:
`[{role: 'system', content: systemPrompt + context}, ...history, {role: 'user', content: userMessage}]`. -/
def assembleMessages (systemPrompt : String) (docs : List ScoredDoc)
    (history : List Message) (userMessage : MessageContent) : List Message :=
  ⟨"system", .str (systemMessageContent systemPrompt docs)⟩ ::
    history ++ [⟨"user", userMessage⟩]

/-- Writing back the trimmed history: to the per-session map under a truthy
session id, else to the default history. -/
def storeHistory (st : AgentState) (sessionId : Option String)
    (newHistory : List Message) : AgentState :=
  match jsTruthyStr sessionId with
  | some sid => { st with sessionHistories := mapSet st.sessionHistories sid newHistory }
  | none => { st with conversationHistory := newHistory }

/-- `Agent.generateResponse(userMessage, options)`.  The two external effects
are passed as oracles: `searchFn` models `this.knowledgeBase.searchDocuments`
(with `{limit: 5}`), and `callFn` models the resolved adapter's network call.
Any stage throwing is caught and re-thrown as `Agent error: ${message}`; the
histories are written only after the provider call resolves. -/
def generateResponse (cfg : LLMConfig) (systemPrompt : String)
    (searchFn : String → Except String (List ScoredDoc))
    (callFn : ProviderKind → List Message → ModelParams → Except String ProviderResponse)
    (st : AgentState) (userMessage : MessageContent) (opts : RespondOptions) :
    Except String (ProviderResponse × List DocSummary) × AgentState :=
  match searchFn (extractSearchQuery userMessage) with
  | .error e => (.error ("Agent error: " ++ e), st)
  | .ok relevantDocs =>
    let history := historyFor st opts.sessionId
    let messages := assembleMessages systemPrompt relevantDocs history userMessage
    match createProvider (jsOrStr opts.provider cfg.defaultProvider) with
    | .error e => (.error ("Agent error: " ++ e), st)
    | .ok provider =>
      match callFn provider messages (respondCallArgs cfg opts) with
      | .error e => (.error ("Agent error: " ++ e), st)
      | .ok response =>
        (.ok (response, relevantDocs.map summarize),
          storeHistory st opts.sessionId
            (trimHistory (history ++
              [⟨"user", userMessage⟩, ⟨"assistant", .str response.content⟩])))

/-- `Agent.generateStreamResponse(userMessage, options)`: identical pipeline,
but the provider call returns a live stream handle (type `σ` here) which is
handed back together with the fragment summaries — and no history write of
any kind is performed. -/
def generateStreamResponse {σ : Type} (cfg : LLMConfig) (systemPrompt : String)
    (searchFn : String → Except String (List ScoredDoc))
    (streamFn : ProviderKind → List Message → ModelParams → Except String σ)
    (st : AgentState) (userMessage : MessageContent) (opts : RespondOptions) :
    Except String (σ × List DocSummary) × AgentState :=
  match searchFn (extractSearchQuery userMessage) with
  | .error e => (.error ("Agent streaming error: " ++ e), st)
  | .ok relevantDocs =>
    let history := historyFor st opts.sessionId
    let messages := assembleMessages systemPrompt relevantDocs history userMessage
    match createProvider (jsOrStr opts.provider cfg.defaultProvider) with
    | .error e => (.error ("Agent streaming error: " ++ e), st)
    | .ok provider =>
      match streamFn provider messages (respondCallArgs cfg opts) with
      | .error e => (.error ("Agent streaming error: " ++ e), st)
      | .ok stream => (.ok (stream, relevantDocs.map summarize), st)

/-! ## Spec-side statement of the per-fragment augmentation (for claim C4) -/

/-- The per-fragment augmentation text as the specification words it:
`"[displayName]: " + first 500 characters of textExcerpt + "..."` for a text
fragment, `"[Image: displayName]"` for an image fragment.  The source's
`contextEntry` additionally terminates each entry with a newline (and the
whole block opens with a `Relevant knowledge` header), so this text appears
inside the augmented prompt rather than being concatenated bare. -/
def claimedFragmentText (d : ScoredDoc) : String :=
  if d.type = "image" then "[Image: " ++ d.filename ++ "]"
  else "[" ++ d.filename ++ "]: " ++ textExcerpt500 d.text ++ "..."

/-! ## Concrete fixtures for the closed test theorems -/

/-- The pricing.md document of the spec's concrete scenario. -/
def pricingDoc : KBDocument :=
  { id := "doc-1", filename := "pricing.md", path := "kb/doc-1.md", type := "md",
    text := some "Our premium plan costs $20/month",
    content := some "Our premium plan costs $20/month" }

/-- A sample `config.llm` (the reference configuration defaults to provider
`openai`; the numeric defaults here are arbitrary nonzero values). -/
def sampleCfg : LLMConfig :=
  { defaultProvider := "openai", defaultModel := "gpt-4",
    maxTokens := 4000, temperature := 2 }

/-- The `n`-th history message of the truncation scenario. -/
def msgN (n : Nat) : Message :=
  ⟨"user", .str (toString n)⟩

/-- A 21-message session history: messages #1 … #21. -/
def sampleHistory21 : List Message :=
  (List.range 21).map (fun i => msgN (i + 1))

/-- Agent state holding the 21-message history under session `s1`. -/
def sampleState21 : AgentState :=
  { conversationHistory := [], sessionHistories := [("s1", sampleHistory21)] }

/-- A knowledge oracle that finds nothing. -/
def searchNoDocs : String → Except String (List ScoredDoc) :=
  fun _ => .ok []

/-- A knowledge oracle whose backend throws. -/
def searchFails : String → Except String (List ScoredDoc) :=
  fun _ => .error "knowledge backend down"

/-- A provider oracle that always answers with a fixed completion. -/
def callFixed : ProviderKind → List Message → ModelParams → Except String ProviderResponse :=
  fun _ _ _ => .ok ⟨"assistant-reply"⟩

/-- Options selecting session `s1` and nothing else. -/
def sessionOpts : RespondOptions :=
  { sessionId := some "s1" }

/-- A one-document file-backed knowledge state whose index and disk agree. -/
def sampleFSState : FSKnowledgeState :=
  { documents := [("doc-1", pricingDoc)], files := ["kb/doc-1.md"] }

/-- A one-row Supabase table. -/
def sampleRows : List SupaRow :=
  [⟨"row-1", "Screen one"⟩]

/-! ## General lemmas about the embedded JS primitives -/

theorem listStartsWith_iff [DecidableEq α] (n h : List α) :
    listStartsWith n h = true ↔ n <+: h := by
  induction n generalizing h with
  | nil => simp [listStartsWith]
  | cons a as ih =>
    cases h with
    | nil => simp [listStartsWith]
    | cons b bs => simp [listStartsWith, ih, List.cons_prefix_cons]

theorem listContainsSub_iff [DecidableEq α] (n h : List α) :
    listContainsSub n h = true ↔ n <:+: h := by
  induction h with
  | nil => simp [listContainsSub, List.isEmpty_iff]
  | cons b bs ih =>
    simp [listContainsSub, listStartsWith_iff, ih, List.infix_cons_iff]

theorem strIncludes_iff (s pat : String) :
    strIncludes s pat = true ↔ pat.data <:+: s.data :=
  listContainsSub_iff pat.data s.data

theorem jsMin_eq_min (a b : ℚ) : jsMin a b = min a b := by
  unfold jsMin
  by_cases h : a.blt b = true
  · rw [if_pos h, min_eq_left (le_of_lt (show a < b from h))]
  · rw [if_neg h, min_eq_right (not_lt.mp (fun hlt => h hlt))]

theorem jsSplitChar_no_sep (sep : Char) (l : List Char) (h : ∀ c ∈ l, c ≠ sep) :
    jsSplitChar sep l = [l] := by
  induction l with
  | nil => rfl
  | cons c cs ih =>
    unfold jsSplitChar
    rw [if_neg (h c (List.mem_cons_self c cs))]
    rw [ih (fun x hx => h x (List.mem_cons_of_mem c hx))]

theorem jsSplitChar_append_sep (sep : Char) (a b : List Char) (h : ∀ c ∈ a, c ≠ sep) :
    jsSplitChar sep (a ++ sep :: b) = a :: jsSplitChar sep b := by
  induction a with
  | nil => simp [jsSplitChar]
  | cons c cs ih =>
    have hc : c ≠ sep := h c (List.mem_cons_self c cs)
    have hrec : jsSplitChar sep (cs ++ sep :: b) = cs :: jsSplitChar sep b :=
      ih (fun x hx => h x (List.mem_cons_of_mem c hx))
    rw [List.cons_append]
    simp only [jsSplitChar]
    rw [if_neg hc, hrec]

theorem mapGet_mapSet_self (m : List (String × α)) (k : String) (v : α) :
    mapGet (mapSet m k v) k = some v := by
  induction m with
  | nil => simp [mapGet, mapSet]
  | cons p rest ih =>
    obtain ⟨k₀, v₀⟩ := p
    unfold mapSet
    by_cases hk : k₀ = k
    · rw [if_pos hk]
      simp [mapGet]
    · rw [if_neg hk]
      unfold mapGet
      rw [if_neg hk]
      exact ih

theorem mapGet_mapDelete_self (m : List (String × α)) (k : String)
    (hu : (m.map Prod.fst).Nodup) :
    mapGet (mapDelete m k) k = none := by
  induction m with
  | nil => rfl
  | cons p rest ih =>
    obtain ⟨k₀, v₀⟩ := p
    have hu2 : (rest.map Prod.fst).Nodup := (List.nodup_cons.mp hu).2
    unfold mapDelete
    by_cases hk : k₀ = k
    · rw [if_pos hk]
      subst hk
      have hnotin : k₀ ∉ rest.map Prod.fst := (List.nodup_cons.mp hu).1
      clear hu ih hu2
      induction rest with
      | nil => rfl
      | cons q qs ihq =>
        obtain ⟨k₁, v₁⟩ := q
        unfold mapGet
        rw [if_neg (fun hh => hnotin (by simp [hh]))]
        exact ihq (fun hh => hnotin (List.mem_cons_of_mem _ hh))
    · rw [if_neg hk]
      unfold mapGet
      rw [if_neg hk]
      exact ih hu2

theorem trimHistory_suffix (l : List α) : trimHistory l <:+ l := by
  unfold trimHistory
  split
  · exact List.drop_suffix _ l
  · exact List.suffix_rfl

theorem trimHistory_length (l : List α) : (trimHistory l).length = min l.length 20 := by
  unfold trimHistory
  split
  · simp
    omega
  · simp
    omega

theorem str_data_append (a b : String) : (a ++ b).data = a.data ++ b.data :=
  rfl

theorem infix_concatStrings (s : String) (l : List String) (h : s ∈ l) :
    s.data <:+: (concatStrings l).data := by
  induction l with
  | nil => cases h
  | cons x xs ih =>
    rcases List.mem_cons.mp h with rfl | hmem
    · exact ((List.prefix_append s.data (concatStrings xs).data).isInfix)
    · obtain ⟨u, t, hut⟩ := ih hmem
      refine ⟨x.data ++ u, t, ?_⟩
      show x.data ++ u ++ s.data ++ t = (x ++ concatStrings xs).data
      rw [str_data_append, ← hut]
      simp

/-! ## Lemmas about the sort of `searchDocuments` -/

theorem insertByScoreDesc_perm (x : ScoredDoc) (l : List ScoredDoc) :
    List.Perm (insertByScoreDesc x l) (x :: l) := by
  induction l with
  | nil => rfl
  | cons y ys ih =>
    unfold insertByScoreDesc
    split
    · rfl
    · exact ((ih.cons y).trans (List.Perm.swap x y ys))

theorem sortByScoreDesc_perm (l : List ScoredDoc) :
    List.Perm (sortByScoreDesc l) l := by
  induction l with
  | nil => rfl
  | cons x xs ih =>
    exact (insertByScoreDesc_perm x (sortByScoreDesc xs)).trans (ih.cons x)

theorem insertByScoreDesc_pairwise (x : ScoredDoc) (l : List ScoredDoc)
    (hl : l.Pairwise (fun a b => b.score ≤ a.score)) :
    (insertByScoreDesc x l).Pairwise (fun a b => b.score ≤ a.score) := by
  induction l with
  | nil => simp [insertByScoreDesc]
  | cons y ys ih =>
    unfold insertByScoreDesc
    rcases hl with _ | ⟨hy, hys⟩
    split
    · refine List.Pairwise.cons ?_ (List.Pairwise.cons hy hys)
      intro z hz
      rcases List.mem_cons.mp hz with rfl | hz2
      · assumption
      · exact le_trans (hy z hz2) (by assumption)
    · refine List.Pairwise.cons ?_ (ih hys)
      intro z hz
      have hz2 := (insertByScoreDesc_perm x ys).mem_iff.mp hz
      rcases List.mem_cons.mp hz2 with rfl | hz3
      · omega
      · exact hy z hz3

theorem sortByScoreDesc_pairwise (l : List ScoredDoc) :
    (sortByScoreDesc l).Pairwise (fun a b => b.score ≤ a.score) := by
  induction l with
  | nil => simp [sortByScoreDesc]
  | cons x xs ih => exact insertByScoreDesc_pairwise x _ ih

theorem filter_insertByScoreDesc (x : ScoredDoc) (l : List ScoredDoc) (s : Nat) :
    (insertByScoreDesc x l).filter (fun d => d.score = s) =
      if x.score = s then x :: l.filter (fun d => d.score = s)
      else l.filter (fun d => d.score = s) := by
  induction l with
  | nil => by_cases hx : x.score = s <;> simp [insertByScoreDesc, hx]
  | cons y ys ih =>
    unfold insertByScoreDesc
    by_cases hxy : y.score ≤ x.score
    · rw [if_pos hxy]
      by_cases hx : x.score = s
      · simp [List.filter, hx]
      · simp [List.filter, hx]
    · rw [if_neg hxy]
      by_cases hy : y.score = s
      · by_cases hx : x.score = s
        · omega
        · simp [List.filter, hy, hx, ih]
      · simp [List.filter, hy, ih]

theorem filter_sortByScoreDesc (l : List ScoredDoc) (s : Nat) :
    (sortByScoreDesc l).filter (fun d => d.score = s) =
      l.filter (fun d => d.score = s) := by
  induction l with
  | nil => rfl
  | cons x xs ih =>
    unfold sortByScoreDesc
    rw [filter_insertByScoreDesc]
    by_cases hx : x.score = s
    · simp [List.filter, hx, ih]
    · simp [List.filter, hx, ih]

theorem sortByScoreDesc_const (l : List ScoredDoc) (c : Nat)
    (h : ∀ x ∈ l, x.score = c) :
    sortByScoreDesc l = l := by
  induction l with
  | nil => rfl
  | cons x xs ih =>
    unfold sortByScoreDesc
    rw [ih (fun y hy => h y (List.mem_cons_of_mem x hy))]
    cases xs with
    | nil => rfl
    | cons y ys =>
      unfold insertByScoreDesc
      rw [if_pos]
      rw [h x (List.mem_cons_self x _), h y (List.mem_cons_of_mem x (List.mem_cons_self y _))]

/-! ## Facts about the empty-query search (claim C1) -/

theorem strIncludes_empty (s : String) : strIncludes s "" = true :=
  (strIncludes_iff s "").mpr List.nil_infix

theorem docScore_empty_term (d : KBDocument) : docScore [""] d = 1 := by
  unfold docScore
  rw [List.countP_cons, List.countP_nil]
  simp [strIncludes_empty]

theorem searchTermsOf_empty : searchTermsOf "" = [""] :=
  rfl

theorem scoreCandidates_empty_term (docs : List KBDocument) :
    scoreCandidates docs [""] =
      docs.map (fun d => { toKBDocument := d, score := 1, relevance := 1 }) := by
  have hfun :
      (fun d : KBDocument =>
        if 0 < docScore [""] d then
          some ({ toKBDocument := d, score := docScore [""] d,
                  relevance :=
                    jsMin ((docScore [""] d : ℚ) / ((([""] : List String).length : Nat) : ℚ)) 1 } :
            ScoredDoc)
        else none) =
      (fun d : KBDocument =>
        some ({ toKBDocument := d, score := 1, relevance := (1 : ℚ) } : ScoredDoc)) := by
    funext d
    rw [docScore_empty_term]
    rw [if_pos Nat.one_pos]
    congr 1
    simp only [List.length_singleton]
    rw [jsMin_eq_min]
    norm_num
  rw [scoreCandidates, hfun]
  exact congrFun (List.filterMap_eq_map _) docs

/-- C1 (corrected): searching with the empty-string query does not return the
empty sequence — `"".split(' ')` is `[""]` and every searchable text contains
the empty string, so every document of the index matches with score 1 and
relevance 1, and the whole index (in insertion order, truncated to the limit)
is returned.  No error is raised. -/
theorem searchDocuments_empty_query (docs : List KBDocument) (k : Nat) (hk : k ≠ 0) :
    searchDocuments docs "" (some k) =
      (docs.map (fun d => { toKBDocument := d, score := 1, relevance := 1 })).take k := by
  show (if k = 0 then searchResultsAll docs "" else (searchResultsAll docs "").take k) = _
  rw [if_neg hk]
  unfold searchResultsAll
  rw [searchTermsOf_empty, scoreCandidates_empty_term]
  rw [sortByScoreDesc_const _ 1 (by intro x hx; obtain ⟨d, _, rfl⟩ := List.mem_map.mp hx; rfl)]

/-- Witness for C1: the one-document index returns that document (score 1,
relevance 1) on the empty query with limit 5. -/
theorem searchDocuments_empty_query_witness :
    (5 : Nat) ≠ 0 ∧
      searchDocuments [pricingDoc] "" (some 5) =
        [{ toKBDocument := pricingDoc, score := 1, relevance := 1 }] :=
  ⟨by decide, searchDocuments_empty_query [pricingDoc] 5 (by decide)⟩

/-- Counterexample to C1 as stated: a non-trivial (one-document) index on
which `search("", 5)` returns one fragment, not the empty sequence. -/
theorem searchDocuments_empty_query_counterexample :
    (searchDocuments [pricingDoc] "" (some 5)).length = 1 := by
  decide

/-! ## Shape of search results (claim C3) -/

theorem mem_scoreCandidates (r : ScoredDoc) (docs : List KBDocument)
    (terms : List String) (h : r ∈ scoreCandidates docs terms) :
    r.relevance = jsMin ((r.score : ℚ) / (terms.length : ℚ)) 1 ∧ 0 < r.score := by
  rcases List.mem_filterMap.mp h with ⟨d, _, heq⟩
  by_cases hp : 0 < docScore terms d
  · rw [if_pos hp] at heq
    cases heq
    exact ⟨rfl, hp⟩
  · rw [if_neg hp] at heq
    cases heq

/-- C3 (corrected): for every query, document set and positive limit `k`,
`search` returns at most `k` fragments, sorted by non-increasing score and
hence non-increasing relevance, every returned fragment's relevance is
`min(score / termCount, 1) ∈ [0, 1]`, and ties between equal scores keep
first-encountered document order: restricted to any one score, the sorted
list equals the candidate list in index order.  (For `k = 0` the claim fails:
`if (options.limit)` treats `0` as falsy and applies no truncation.) -/
theorem searchDocuments_limit_spec (docs : List KBDocument) (q : String)
    (k : Nat) (hk : 0 < k) :
    (searchDocuments docs q (some k)).length ≤ k
    ∧ (searchDocuments docs q (some k)).Pairwise (fun a b => b.score ≤ a.score)
    ∧ (searchDocuments docs q (some k)).Pairwise (fun a b => b.relevance ≤ a.relevance)
    ∧ (∀ r ∈ searchDocuments docs q (some k),
        r.relevance = min ((r.score : ℚ) / ((searchTermsOf q).length : ℚ)) 1
        ∧ 0 ≤ r.relevance ∧ r.relevance ≤ 1)
    ∧ (∀ s : Nat,
        (searchResultsAll docs q).filter (fun d => d.score = s) =
          (scoreCandidates docs (searchTermsOf q)).filter (fun d => d.score = s)) := by
  have hres : searchDocuments docs q (some k) = (searchResultsAll docs q).take k := by
    show (if k = 0 then searchResultsAll docs q else (searchResultsAll docs q).take k) = _
    rw [if_neg (Nat.pos_iff_ne_zero.mp hk)]
  have hsorted : (searchResultsAll docs q).Pairwise (fun a b => b.score ≤ a.score) :=
    sortByScoreDesc_pairwise _
  have hform : ∀ r ∈ searchResultsAll docs q,
      r.relevance = jsMin ((r.score : ℚ) / ((searchTermsOf q).length : ℚ)) 1 ∧ 0 < r.score :=
    fun r hr =>
      mem_scoreCandidates r docs (searchTermsOf q)
        ((sortByScoreDesc_perm (scoreCandidates docs (searchTermsOf q))).mem_iff.mp hr)
  have htake : (searchDocuments docs q (some k)).Pairwise (fun a b => b.score ≤ a.score) := by
    rw [hres]
    exact hsorted.sublist (List.take_sublist k _)
  refine ⟨?_, htake, ?_, ?_, ?_⟩
  · rw [hres]
    exact List.length_take_le k _
  · refine List.Pairwise.imp_of_mem ?_ htake
    intro a b ha hb hscore
    rw [hres] at ha hb
    obtain ⟨hfa, _⟩ := hform a (List.mem_of_mem_take ha)
    obtain ⟨hfb, _⟩ := hform b (List.mem_of_mem_take hb)
    rw [hfa, hfb, jsMin_eq_min, jsMin_eq_min]
    refine min_le_min ?_ le_rfl
    have hcast : (b.score : ℚ) ≤ (a.score : ℚ) := by exact_mod_cast hscore
    gcongr
  · intro r hr
    rw [hres] at hr
    obtain ⟨hf, _⟩ := hform r (List.mem_of_mem_take hr)
    rw [hf, jsMin_eq_min]
    refine ⟨rfl, ?_, min_le_right _ _⟩
    exact le_min (div_nonneg (Nat.cast_nonneg _) (Nat.cast_nonneg _)) zero_le_one
  · intro s
    exact filter_sortByScoreDesc _ s

/-- Witness for C3 at the pricing document, query `premium`, limit 5. -/
theorem searchDocuments_limit_spec_witness :
    (0 < 5) ∧ (searchDocuments [pricingDoc] "premium" (some 5)).length ≤ 5 :=
  ⟨by decide, (searchDocuments_limit_spec [pricingDoc] "premium" 5 (by decide)).1⟩

/-- Counterexample to C3 as stated for every limit: with limit `0`, the call
returns 1 fragment (more than 0), because `if (options.limit)` is false at 0
and no truncation happens. -/
theorem searchDocuments_limit_spec_counterexample :
    (searchDocuments [pricingDoc] "premium" (some 0)).length = 1 := by
  decide

/-! ## History truncation (claim C2) -/

theorem jsTruthyStr_some (s : String) (h : s ≠ "") : jsTruthyStr (some s) = some s := by
  show (if s = "" then none else some s) = some s
  rw [if_neg h]

theorem historyFor_session (st : AgentState) (sid : String) (h : List Message)
    (hne : sid ≠ "") (hget : mapGet st.sessionHistories sid = some h) :
    historyFor st (some sid) = h := by
  unfold historyFor
  rw [jsTruthyStr_some sid hne]
  show (mapGet st.sessionHistories sid).getD [] = h
  rw [hget]
  rfl

theorem storeHistory_session (st : AgentState) (sid : String) (nh : List Message)
    (hne : sid ≠ "") :
    storeHistory st (some sid) nh =
      { st with sessionHistories := mapSet st.sessionHistories sid nh } := by
  unfold storeHistory
  rw [jsTruthyStr_some sid hne]

theorem trimHistory_of_length21 (h : List α) (u a : α) (hlen : h.length = 21) :
    trimHistory (h ++ [u, a]) = h.drop 3 ++ [u, a] := by
  unfold trimHistory
  rw [List.length_append, hlen]
  rw [if_pos (by norm_num)]
  have h3 : (3 : Nat) ≤ h.length := by omega
  have : (21 + [u, a].length) - 20 = 3 := by norm_num
  rw [this, List.drop_append_of_le_length h3]

/-- C2 (corrected): a successful respond() call always retains exactly the
most recent 20 messages, dropped from the head only (the retained history is
a suffix of the appended history, of length `min (|h| + 2) 20`); but the call
appends two messages (user and assistant), so on a 21-message session history
the retained history is messages #4 … #23 — it excludes messages #1–#3
(in particular #2 and #3, which the claim said were retained) and includes
the two new messages. -/
theorem respond_history_truncation :
    (∀ (h : List Message) (u a : Message),
        trimHistory (h ++ [u, a]) <:+ (h ++ [u, a])
        ∧ (trimHistory (h ++ [u, a])).length = min (h.length + 2) 20)
    ∧ ∀ (cfg : LLMConfig) (sp : String)
        (searchFn : String → Except String (List ScoredDoc))
        (callFn : ProviderKind → List Message → ModelParams → Except String ProviderResponse)
        (st : AgentState) (u : MessageContent) (opts : RespondOptions)
        (sid : String) (h : List Message) (resp : ProviderResponse)
        (docsOut : List DocSummary),
        opts.sessionId = some sid → sid ≠ "" →
        mapGet st.sessionHistories sid = some h → h.length = 21 →
        (generateResponse cfg sp searchFn callFn st u opts).1 = .ok (resp, docsOut) →
        mapGet ((generateResponse cfg sp searchFn callFn st u opts).2).sessionHistories sid =
          some (h.drop 3 ++ [⟨"user", u⟩, ⟨"assistant", .str resp.content⟩]) := by
  constructor
  · intro h u a
    refine ⟨trimHistory_suffix _, ?_⟩
    rw [trimHistory_length, List.length_append]
    simp
  · intro cfg sp searchFn callFn st u opts sid h resp docsOut hsid hne hget hlen hok
    have hhist : historyFor st opts.sessionId = h := by
      rw [hsid]
      exact historyFor_session st sid h hne hget
    cases hs : searchFn (extractSearchQuery u) with
    | error e => simp [generateResponse, hs] at hok
    | ok docs =>
      cases hp : createProvider (jsOrStr opts.provider cfg.defaultProvider) with
      | error e => simp [generateResponse, hs, hp] at hok
      | ok prov =>
        cases hc : callFn prov
            (assembleMessages sp docs (historyFor st opts.sessionId) u)
            (respondCallArgs cfg opts) with
        | error e => simp [generateResponse, hs, hp, hc] at hok
        | ok response =>
          have hresp : response = resp := by
            simp [generateResponse, hs, hp, hc] at hok
            exact hok.1
          simp only [generateResponse, hs, hp, hc]
          rw [hsid, storeHistory_session st sid _ hne]
          simp only []
          rw [mapGet_mapSet_self, historyFor_session st sid h hne hget, hresp]
          rw [trimHistory_of_length21 h _ _ hlen]

/-- Witness for C2: the concrete 21-message session; after one respond() call
the retained history is exactly messages #4 … #21 plus the new user and
assistant messages. -/
theorem respond_history_truncation_witness :
    sessionOpts.sessionId = some "s1" ∧ sampleHistory21.length = 21 ∧
      mapGet ((generateResponse sampleCfg "" searchNoDocs callFixed sampleState21
          (.str "22") sessionOpts).2).sessionHistories "s1" =
        some (sampleHistory21.drop 3 ++
          [⟨"user", .str "22"⟩, ⟨"assistant", .str "assistant-reply"⟩]) :=
  ⟨rfl, by decide,
    respond_history_truncation.2 sampleCfg "" searchNoDocs callFixed sampleState21
      (.str "22") sessionOpts "s1" sampleHistory21 ⟨"assistant-reply"⟩ []
      rfl (by decide) (by decide) (by decide) (by decide)⟩

/-- Counterexample to C2 as stated: in the 21-message scenario the claim says
message #2 is retained; the code retains only messages #4 … #23, so message
#2 is not in the retained history. -/
theorem respond_history_truncation_counterexample :
    msgN 2 ∉
      (mapGet ((generateResponse sampleCfg "" searchNoDocs callFixed sampleState21
          (.str "22") sessionOpts).2).sessionHistories "s1").getD [] := by
  decide

/-! ## System-prompt augmentation (claim C4) -/

theorem isInfix_append_left (a : List α) {n b : List α} (h : n <:+: b) :
    n <:+: a ++ b := by
  obtain ⟨s, t, rfl⟩ := h
  exact ⟨a ++ s, t, by simp⟩

theorem contextEntry_eq_claimed (d : ScoredDoc) :
    contextEntry d = claimedFragmentText d ++ "\n" := by
  have h1 : ("]" : String) ++ "\n" = "]\n" := by decide
  have h2 : ("..." : String) ++ "\n" = "...\n" := by decide
  unfold contextEntry claimedFragmentText
  by_cases ht : d.type = "image"
  · rw [if_pos ht, if_pos ht]
    simp [String.append_assoc, h1]
  · rw [if_neg ht, if_neg ht]
    simp [String.append_assoc, h2]

/-- C4 (confirmed): with zero matching fragments the system message is the
base system prompt unmodified; with fragments, the augmented system prompt
contains, for each returned fragment, `"[displayName]: " + first 500
characters of text + "..."` (text) or `"[Image: displayName]"` (image); and
in the concrete pricing.md scenario the augmented prompt contains
`[pricing.md]: Our premium plan costs $20/month`. -/
theorem system_prompt_augmentation :
    (∀ sp : String, systemMessageContent sp [] = sp)
    ∧ (∀ (sp : String) (docs : List ScoredDoc) (d : ScoredDoc), d ∈ docs →
        (claimedFragmentText d).data <:+: (systemMessageContent sp docs).data)
    ∧ ("[pricing.md]: Our premium plan costs $20/month").data <:+:
        (systemMessageContent "You are helpful."
          (searchDocuments [pricingDoc] "what is the premium plan price" (some 5))).data := by
  refine ⟨?_, ?_, ?_⟩
  · intro sp
    show sp ++ "" = sp
    exact String.append_empty sp
  · intro sp docs d hmem
    cases docs with
    | nil => cases hmem
    | cons x xs =>
      have hpre : (claimedFragmentText d).data <+: (contextEntry d).data :=
        ⟨("\n" : String).data, by rw [← str_data_append, ← contextEntry_eq_claimed]⟩
      have hcat : (contextEntry d).data <:+: (concatStrings ((x :: xs).map contextEntry)).data :=
        infix_concatStrings _ _ (List.mem_map_of_mem contextEntry hmem)
      have hinf : (claimedFragmentText d).data <:+:
          (concatStrings ((x :: xs).map contextEntry)).data :=
        hpre.isInfix.trans hcat
      show (claimedFragmentText d).data <:+:
        (sp ++ ("\n\nRelevant knowledge:\n" ++ concatStrings ((x :: xs).map contextEntry))).data
      rw [str_data_append, str_data_append]
      exact isInfix_append_left _ (isInfix_append_left _ hinf)
  · decide

/-- Witness for C4: a one-fragment index; the fragment's claimed text occurs
in the augmented prompt. -/
theorem system_prompt_augmentation_witness :
    (claimedFragmentText { toKBDocument := pricingDoc, score := 1, relevance := 1 }).data <:+:
      (systemMessageContent "You are helpful."
        [{ toKBDocument := pricingDoc, score := 1, relevance := 1 }]).data :=
  system_prompt_augmentation.2.1 "You are helpful."
    [{ toKBDocument := pricingDoc, score := 1, relevance := 1 }]
    { toKBDocument := pricingDoc, score := 1, relevance := 1 }
    (List.mem_singleton.mpr rfl)

/-! ## Adapter image-part translation (claim C5) -/

theorem dataUrl_data (mime payload : String) :
    (dataUrl mime payload).data =
      (("data:" : String).data ++ mime.data ++ (";base64" : String).data) ++
        ',' :: payload.data := by
  have h3 : (";base64," : String).data = (";base64" : String).data ++ [','] := by decide
  show ("data:" ++ mime ++ ";base64," ++ payload).data = _
  simp [str_data_append, h3]

theorem jsSplitComma_dataUrl (mime payload : String)
    (hm : ∀ c ∈ mime.data, c ≠ ',') (hp : ∀ c ∈ payload.data, c ≠ ',') :
    jsSplitComma (dataUrl mime payload) =
      [⟨("data:" : String).data ++ mime.data ++ (";base64" : String).data⟩, payload] := by
  have hda : ∀ c ∈ ("data:" : String).data, c ≠ ',' := by decide
  have hba : ∀ c ∈ (";base64" : String).data, c ≠ ',' := by decide
  have ha : ∀ c ∈ ("data:" : String).data ++ mime.data ++ (";base64" : String).data,
      c ≠ ',' := by
    intro c hc
    rcases List.mem_append.mp hc with hc1 | hc2
    · rcases List.mem_append.mp hc1 with hc3 | hc4
      · exact hda c hc3
      · exact hm c hc4
    · exact hba c hc2
  unfold jsSplitComma
  rw [dataUrl_data, jsSplitChar_append_sep ',' _ _ ha, jsSplitChar_no_sep ',' _ hp]
  rfl

/-- C5 (corrected): for every image part carried as a data-URL
`data:<mime>;base64,<payload>` (with comma-free mime and payload, as base64
payloads always are), both the Anthropic and the Google adapters extract
`<payload>` — `url.split(',')[1]` — but both hard-code the media type
`image/jpeg` instead of extracting the `<mime>` token, even when the
representation tags another mime type such as `image/png`. -/
theorem adapter_image_translation (mime payload : String)
    (hm : ∀ c ∈ mime.data, c ≠ ',') (hp : ∀ c ∈ payload.data, c ≠ ',') :
    anthropicFormatItem (.imageUrl (dataUrl mime payload)) =
      .image "base64" "image/jpeg" payload
    ∧ googleFormatItem (.imageUrl (dataUrl mime payload)) =
      .inlineData "image/jpeg" payload := by
  have hsplit := jsSplitComma_dataUrl mime payload hm hp
  constructor
  · show AnthropicPart.image "base64" "image/jpeg"
      (((jsSplitComma (dataUrl mime payload)).get? 1).getD "") = _
    rw [hsplit]
    rfl
  · show GooglePart.inlineData "image/jpeg"
      (((jsSplitComma (dataUrl mime payload)).get? 1).getD "") = _
    rw [hsplit]
    rfl

/-- Witness for C5: the PNG data-URL `data:image/png;base64,AAAA`; both
adapters extract the payload `AAAA` (and tag it `image/jpeg`). -/
theorem adapter_image_translation_witness :
    anthropicFormatItem (.imageUrl (dataUrl "image/png" "AAAA")) =
      .image "base64" "image/jpeg" "AAAA"
    ∧ googleFormatItem (.imageUrl (dataUrl "image/png" "AAAA")) =
      .inlineData "image/jpeg" "AAAA" :=
  adapter_image_translation "image/png" "AAAA" (by decide) (by decide)

/-- Counterexample to C5 as stated: on a `image/png`-tagged data-URL both
adapters emit media type `image/jpeg`, not `image/png` — they do assume JPEG. -/
theorem adapter_image_translation_counterexample :
    (anthropicFormatItem (.imageUrl "data:image/png;base64,AAAA")).mediaTypeOf = "image/jpeg"
    ∧ (googleFormatItem (.imageUrl "data:image/png;base64,AAAA")).mimeTypeOf = "image/jpeg"
    ∧ (anthropicFormatItem (.imageUrl "data:image/png;base64,AAAA")).mediaTypeOf ≠ "image/png" := by
  refine ⟨by decide, by decide, by decide⟩

/-! ## Provider resolution (claim C6) -/

theorem createProvider_ok_iff (name : String) (p : ProviderKind) :
    createProvider name = .ok p ↔ resolveLower (jsToLower name) = some p := by
  unfold createProvider resolveLower
  by_cases h1 : jsToLower name = "openai" <;>
    by_cases h2 : jsToLower name = "google" ∨ jsToLower name = "gemini" <;>
    by_cases h3 : jsToLower name = "anthropic" ∨ jsToLower name = "claude" <;>
    by_cases h4 : jsToLower name = "mistral" <;>
    by_cases h5 : jsToLower name = "fireworks" <;>
    simp [h1, h2, h3, h4, h5]

/-- C6 (confirmed): provider resolution is case-insensitive (two names with
the same lowercasing resolve to the same adapter), `gemini` resolves to the
Google adapter and `claude` to the Anthropic adapter (in any letter case),
and any name outside the supported set — e.g. `llama-farm` — throws
`Unsupported provider: <name>`; the `default` branch constructs no adapter,
so there is no fallback and no network call. -/
theorem provider_resolution :
    (∀ a b : String, jsToLower a = jsToLower b →
        ∀ p : ProviderKind, createProvider a = .ok p ↔ createProvider b = .ok p)
    ∧ createProvider "gemini" = .ok .google
    ∧ createProvider "Gemini" = .ok .google
    ∧ createProvider "claude" = .ok .anthropic
    ∧ createProvider "CLAUDE" = .ok .anthropic
    ∧ (∀ name : String, resolveLower (jsToLower name) = none →
        createProvider name = .error ("Unsupported provider: " ++ name))
    ∧ createProvider "llama-farm" = .error "Unsupported provider: llama-farm" := by
  refine ⟨?_, by decide, by decide, by decide, by decide, ?_, by decide⟩
  · intro a b h p
    rw [createProvider_ok_iff, createProvider_ok_iff, h]
  · intro name hnone
    unfold resolveLower at hnone
    unfold createProvider
    by_cases h1 : jsToLower name = "openai" <;>
      by_cases h2 : jsToLower name = "google" ∨ jsToLower name = "gemini" <;>
      by_cases h3 : jsToLower name = "anthropic" ∨ jsToLower name = "claude" <;>
      by_cases h4 : jsToLower name = "mistral" <;>
      by_cases h5 : jsToLower name = "fireworks" <;>
      simp [h1, h2, h3, h4, h5] at hnone ⊢

/-- Witness for C6: `GeMiNi` resolves exactly when `gemini` does (the two
lowercase to the same name), and the unsupported name `llama-farm` errors. -/
theorem provider_resolution_witness :
    (createProvider "GeMiNi" = .ok .google ↔ createProvider "gemini" = .ok .google)
    ∧ createProvider "llama-farm" = .error "Unsupported provider: llama-farm" :=
  ⟨provider_resolution.1 "GeMiNi" "gemini" (by decide) .google,
    (provider_resolution.2.2.2.2.2.2 : _)⟩

/-! ## Streaming does not touch history (claim C7) -/

/-- C7 (confirmed): `generateStreamResponse` never writes conversation state:
for every user message, options, session id and oracle outcomes (including
every error path), the agent state after the call — both the per-session
history map and the default unscoped history — is exactly the state before
it.  Only the blocking path appends the user/assistant turn. -/
theorem streaming_preserves_history {σ : Type} (cfg : LLMConfig) (sp : String)
    (searchFn : String → Except String (List ScoredDoc))
    (streamFn : ProviderKind → List Message → ModelParams → Except String σ)
    (st : AgentState) (u : MessageContent) (opts : RespondOptions) :
    (generateStreamResponse cfg sp searchFn streamFn st u opts).2 = st
    ∧ ((generateStreamResponse cfg sp searchFn streamFn st u opts).2).sessionHistories =
        st.sessionHistories
    ∧ ((generateStreamResponse cfg sp searchFn streamFn st u opts).2).conversationHistory =
        st.conversationHistory := by
  have hst : (generateStreamResponse cfg sp searchFn streamFn st u opts).2 = st := by
    cases hs : searchFn (extractSearchQuery u) with
    | error e => simp [generateStreamResponse, hs]
    | ok docs =>
      cases hp : createProvider (jsOrStr opts.provider cfg.defaultProvider) with
      | error e => simp [generateStreamResponse, hs, hp]
      | ok prov =>
        cases hc : streamFn prov
            (assembleMessages sp docs (historyFor st opts.sessionId) u)
            (respondCallArgs cfg opts) with
        | error e => simp [generateStreamResponse, hs, hp, hc]
        | ok stream => simp [generateStreamResponse, hs, hp, hc]
  exact ⟨hst, by rw [hst], by rw [hst]⟩

/-! ## Parameters passed to the provider (claim C9) -/

/-- C9 (corrected): the provider is invoked with exactly the triple
`respondCallArgs` (two call oracles agreeing on it are indistinguishable),
and that triple uses the caller-supplied model / maxTokens / temperature
when they are truthy (nonempty string, nonzero number) and the configured
defaults when absent — but also when the caller supplies the falsy boundary
values `0` (or `""`), because the code reads `options.x || config.llm.x`.
So temperature 0 and maxTokens 0 are not honored. -/
theorem provider_call_params :
    (∀ (cfg : LLMConfig) (opts : RespondOptions) (m : String),
        opts.model = some m → m ≠ "" → (respondCallArgs cfg opts).model = m)
    ∧ (∀ (cfg : LLMConfig) (opts : RespondOptions) (n : Nat),
        opts.maxTokens = some n → n ≠ 0 → (respondCallArgs cfg opts).maxTokens = n)
    ∧ (∀ (cfg : LLMConfig) (opts : RespondOptions) (t : ℚ),
        opts.temperature = some t → t ≠ 0 → (respondCallArgs cfg opts).temperature = t)
    ∧ (∀ (cfg : LLMConfig) (opts : RespondOptions),
        opts.model = none → (respondCallArgs cfg opts).model = cfg.defaultModel)
    ∧ (∀ (cfg : LLMConfig) (opts : RespondOptions),
        opts.maxTokens = none → (respondCallArgs cfg opts).maxTokens = cfg.maxTokens)
    ∧ (∀ (cfg : LLMConfig) (opts : RespondOptions),
        opts.temperature = none → (respondCallArgs cfg opts).temperature = cfg.temperature)
    ∧ (∀ (cfg : LLMConfig) (opts : RespondOptions),
        opts.maxTokens = some 0 → (respondCallArgs cfg opts).maxTokens = cfg.maxTokens)
    ∧ (∀ (cfg : LLMConfig) (opts : RespondOptions),
        opts.temperature = some 0 → (respondCallArgs cfg opts).temperature = cfg.temperature)
    ∧ (∀ (cfg : LLMConfig) (sp : String)
        (searchFn : String → Except String (List ScoredDoc))
        (f g : ProviderKind → List Message → ModelParams → Except String ProviderResponse)
        (st : AgentState) (u : MessageContent) (opts : RespondOptions),
        (∀ (p : ProviderKind) (msgs : List Message),
          f p msgs (respondCallArgs cfg opts) = g p msgs (respondCallArgs cfg opts)) →
        generateResponse cfg sp searchFn f st u opts =
          generateResponse cfg sp searchFn g st u opts) := by
  refine ⟨?_, ?_, ?_, ?_, ?_, ?_, ?_, ?_, ?_⟩
  · intro cfg opts m hm hne
    show jsOrStr opts.model cfg.defaultModel = m
    rw [hm]
    show (if m = "" then cfg.defaultModel else m) = m
    rw [if_neg hne]
  · intro cfg opts n hn hne
    show jsOrNat opts.maxTokens cfg.maxTokens = n
    rw [hn]
    show (if n = 0 then cfg.maxTokens else n) = n
    rw [if_neg hne]
  · intro cfg opts t ht hne
    show jsOrRat opts.temperature cfg.temperature = t
    rw [ht]
    show (if t = 0 then cfg.temperature else t) = t
    rw [if_neg hne]
  · intro cfg opts hm
    show jsOrStr opts.model cfg.defaultModel = cfg.defaultModel
    rw [hm]
    rfl
  · intro cfg opts hn
    show jsOrNat opts.maxTokens cfg.maxTokens = cfg.maxTokens
    rw [hn]
    rfl
  · intro cfg opts ht
    show jsOrRat opts.temperature cfg.temperature = cfg.temperature
    rw [ht]
    rfl
  · intro cfg opts hn
    show jsOrNat opts.maxTokens cfg.maxTokens = cfg.maxTokens
    rw [hn]
    show (if (0 : Nat) = 0 then cfg.maxTokens else 0) = cfg.maxTokens
    rw [if_pos rfl]
  · intro cfg opts ht
    show jsOrRat opts.temperature cfg.temperature = cfg.temperature
    rw [ht]
    show (if (0 : ℚ) = 0 then cfg.temperature else 0) = cfg.temperature
    rw [if_pos rfl]
  · intro cfg sp searchFn f g st u opts hagree
    cases hs : searchFn (extractSearchQuery u) with
    | error e => simp [generateResponse, hs]
    | ok docs =>
      cases hp : createProvider (jsOrStr opts.provider cfg.defaultProvider) with
      | error e => simp [generateResponse, hs, hp]
      | ok prov =>
        simp only [generateResponse, hs, hp]
        rw [hagree prov (assembleMessages sp docs (historyFor st opts.sessionId) u)]

/-- Witness for C9: a truthy supplied temperature 1 is passed through, and a
supplied temperature 0 falls back to the default. -/
theorem provider_call_params_witness :
    (respondCallArgs sampleCfg { temperature := some 1 }).temperature = 1
    ∧ (respondCallArgs sampleCfg { temperature := some 0 }).temperature =
        sampleCfg.temperature :=
  ⟨provider_call_params.2.2.1 sampleCfg { temperature := some 1 } 1 rfl (by norm_num),
    provider_call_params.2.2.2.2.2.2.2.1 sampleCfg { temperature := some 0 } rfl⟩

/-- Counterexample to C9 as stated: the caller supplies the boundary value
temperature 0, but the provider receives the configured default 2, not 0. -/
theorem provider_call_params_counterexample :
    (respondCallArgs sampleCfg { temperature := some 0 }).temperature = 2
    ∧ (2 : ℚ) ≠ 0
    ∧ (respondCallArgs sampleCfg { maxTokens := some 0 }).maxTokens = 4000 := by
  refine ⟨by decide, by norm_num, by decide⟩

/-! ## Error path leaves history untouched (claim C10) -/

/-- C10 (confirmed): whenever any stage of the blocking respond operation
fails — the knowledge search, the provider resolution, or the vendor call —
the operation returns the wrapped `Agent error: <message>` and the agent
state (per-session map and default history) is exactly the pre-call state:
the history write happens only after the provider call has succeeded. -/
theorem respond_error_frame (cfg : LLMConfig) (sp : String)
    (searchFn : String → Except String (List ScoredDoc))
    (callFn : ProviderKind → List Message → ModelParams → Except String ProviderResponse)
    (st : AgentState) (u : MessageContent) (opts : RespondOptions)
    (h : ∃ e, (generateResponse cfg sp searchFn callFn st u opts).1 = .error e) :
    (generateResponse cfg sp searchFn callFn st u opts).2 = st
    ∧ ∀ e, (generateResponse cfg sp searchFn callFn st u opts).1 = .error e →
        ∃ m, e = "Agent error: " ++ m := by
  cases hs : searchFn (extractSearchQuery u) with
  | error e0 =>
    constructor
    · simp [generateResponse, hs]
    · intro e he
      simp [generateResponse, hs] at he
      exact ⟨e0, he.symm⟩
  | ok docs =>
    cases hp : createProvider (jsOrStr opts.provider cfg.defaultProvider) with
    | error e0 =>
      constructor
      · simp [generateResponse, hs, hp]
      · intro e he
        simp [generateResponse, hs, hp] at he
        exact ⟨e0, he.symm⟩
    | ok prov =>
      cases hc : callFn prov
          (assembleMessages sp docs (historyFor st opts.sessionId) u)
          (respondCallArgs cfg opts) with
      | error e0 =>
        constructor
        · simp [generateResponse, hs, hp, hc]
        · intro e he
          simp [generateResponse, hs, hp, hc] at he
          exact ⟨e0, he.symm⟩
      | ok response =>
        obtain ⟨e, he⟩ := h
        simp [generateResponse, hs, hp, hc] at he

/-- Witness for C10: a failing knowledge backend; the call errors with the
wrapped message and the 21-message session state is untouched. -/
theorem respond_error_frame_witness :
    (generateResponse sampleCfg "" searchFails callFixed sampleState21
        (.str "hi") sessionOpts).2 = sampleState21 :=
  (respond_error_frame sampleCfg "" searchFails callFixed sampleState21
      (.str "hi") sessionOpts
      ⟨"Agent error: knowledge backend down", by decide⟩).1

/-! ## Deleting a document twice (claim C8) -/

/-- C8 (corrected): on the local-filesystem backend, deleting an existing
document succeeds and deleting it again throws `Document not found`.  On the
Supabase backend, however, `deleteDocument` only issues
`delete().eq('id', id)` and checks for a backend error; deleting an id that
matches no row is not a backend error, so the second call succeeds as well —
the success-then-NotFound guarantee holds only for the local backend. -/
theorem delete_document_twice :
    (∀ (st : FSKnowledgeState) (id : String) (doc : KBDocument),
        (st.documents.map Prod.fst).Nodup →
        mapGet st.documents id = some doc →
        st.files.contains doc.path = true →
        (deleteDocument st id).1 = .ok true
        ∧ (deleteDocument (deleteDocument st id).2 id).1 = .error "Document not found")
    ∧ (∀ (rows : List SupaRow) (id : String),
        (supabaseDeleteDocument none rows id).1 = .ok true
        ∧ (supabaseDeleteDocument none
            (supabaseDeleteDocument none rows id).2 id).1 = .ok true) := by
  constructor
  · intro st id doc hnodup hget hcont
    have h2 : (deleteDocument st id).2 =
        { documents := mapDelete st.documents id, files := st.files.erase doc.path } := by
      simp only [deleteDocument, hget]
      rw [if_pos hcont]
    constructor
    · simp only [deleteDocument, hget]
      rw [if_pos hcont]
    · rw [h2]
      simp only [deleteDocument]
      rw [mapGet_mapDelete_self st.documents id hnodup]
  · intro rows id
    exact ⟨rfl, rfl⟩

/-- Witness for C8: the one-document local store — first delete succeeds,
second throws `Document not found`; and on the one-row Supabase store both
deletes report success. -/
theorem delete_document_twice_witness :
    ((deleteDocument sampleFSState "doc-1").1 = .ok true
      ∧ (deleteDocument (deleteDocument sampleFSState "doc-1").2 "doc-1").1 =
          .error "Document not found")
    ∧ ((supabaseDeleteDocument none sampleRows "row-1").1 = .ok true
      ∧ (supabaseDeleteDocument none
          (supabaseDeleteDocument none sampleRows "row-1").2 "row-1").1 = .ok true) :=
  ⟨delete_document_twice.1 sampleFSState "doc-1" pricingDoc (by decide) (by decide) (by decide),
    delete_document_twice.2 sampleRows "row-1"⟩

/-- Counterexample to C8 as stated: on the Supabase backend the second
delete of the same id reports success, not a NotFound error. -/
theorem delete_document_twice_counterexample :
    (supabaseDeleteDocument none
      (supabaseDeleteDocument none sampleRows "row-1").2 "row-1").1 = .ok true := by
  rfl

end LLMProxy
